import Mathlib

/-!
# snark-ur10-control: command dispatch, control-loop tick and status draining

A shallow embedding of `src/actuators/ur10/applications/snark-ur10-control.cpp`,
followed by one of `src/math/rotation_matrix.cpp` over the real numbers.

* Strings are Lean strings, token lines are lists of strings.
* The command records (`commands.h`), their text codec, the action performers
  (`action.h`), the error codes and the Simulink register blocks are declared
  in other headers; they enter the embedding as parameters.
* The standard output, the arm link and the publisher are lists of the items
  written to them, oldest first. Diagnostics on `std::cerr` are not modelled.
-/

namespace Ur10

/-! ## Strings -/

/-- The call `comma::join( v, delimiter )`: the elements separated by the delimiter. -/
def join (v : List String) (d : Char) : String :=
  String.intercalate (String.singleton d) v

/-- The call `comma::join( v, n, delimiter )`: the first `n` elements, separated. -/
def join_n (v : List String) (n : Nat) (d : Char) : String :=
  join (v.take n) d

/-- The helper `impl_::str` at an error code: `boost::lexical_cast< std::string >`
of an enumerator prints its integer value in decimal. -/
def str (t : Int) : String := toString t

/-- The call `boost::iequals( a, b )`: same length and equal element by element
after upper-casing (classic locale). -/
def iequals (a b : String) : Bool :=
  a.data.map Char.toUpper == b.data.map Char.toUpper

/-- The pieces of a list of characters between the delimiters, empty pieces kept. -/
def split_chars (d : Char) : List Char → List (List Char)
  | [] => [[]]
  | c :: cs =>
    if c = d then [] :: split_chars d cs
    else
      match split_chars d cs with
      | [] => [[c]]
      | p :: ps => (c :: p) :: ps

/-- The call `comma::split( s, delimiter )`: the tokens of a line, which are the
pieces of `s` between the delimiters, empty pieces kept. -/
def split (s : String) (d : Char) : List String :=
  (split_chars d s.data).map String.mk

/-! ## Results and command records -/

/-- The values `arm::errors::format_error` and `arm::errors::unknown_command`
(declared in `commands.h`). -/
structure errors where
  format_error : Int
  unknown_command : Int
deriving DecidableEq, Repr

/-- The class `arm::result`: a status code and a message. -/
structure result where
  code : Int
  message : String
deriving DecidableEq, Repr

/-- Modelled from the spec: `result::get_message` (declared in `commands.h`).
The response line is `<echoed-parsed-fields>,<status_code>,"<message>";`, and
`handle` supplies the echo, the comma before the code and the final `;`. -/
def result.get_message (r : result) : String :=
  toString r.code ++ ",\"" ++ r.message ++ "\""

/-- What `C::ascii().get( line )` can do: give a record or throw. -/
inductive parsed (C : Type) where
  | record (c : C)
  | bad_lexical_cast
  | comma_exception
  | other_exception

/-- How a function ends. -/
inductive outcome (α : Type) where
  /-- It returns normally. -/
  | done (a : α)
  /-- It throws `comma::exception` with this message. -/
  | raised (what : String)
  /-- It reads `v[2]` past the end of `v`. -/
  | undefined
  /-- It never returns. -/
  | diverges

/-- What `handle< C >` and `arm::action< C >` need of a command record type `C`.
The input registers have type `U`.

Modelled from the spec: `arm::action< C >::run` (declared in `action.h`)
"writes validated parameters into the Motion Engine's input registers and
returns a structured result". -/
structure command (U : Type) where
  /-- The record type. -/
  C : Type
  /-- The default-constructed record `C c;`. -/
  init : C
  /-- The parser `C::ascii().get( line )`. -/
  get : List String → parsed C
  /-- The member `c.names()`. -/
  names : C → String
  /-- The member `c.serialise()`. -/
  serialise : C → String
  /-- The performer `arm::action< C >::run( c, os )`. -/
  run : C → U → result × U

/-- What a call of `handle< C >` that returns has done. -/
structure handled (U : Type) where
  /-- The returned string. -/
  response : String
  /-- The result of the action; `none` when the action was not run. -/
  ret : Option result
  /-- The input registers afterwards. -/
  U : U

/-- The function template `handle< C >( line, os )`. -/
def handle {U : Type} (e : errors) (V : command U) (line : List String) (u : U) :
    outcome (handled U) :=
  match V.get line with
  | .bad_lexical_cast =>
    .done { response := "<" ++ join line ',' ++ "," ++ str e.format_error
              ++ ",\"command format error, wrong field type/s, fields: " ++ V.names V.init
              ++ " - types: " ++ V.serialise V.init ++ "\";",
            ret := none, U := u }
  | .comma_exception =>
    .done { response := "<" ++ join line ',' ++ "," ++ str e.format_error
              ++ ",\"command format error, wrong field/s or field type/s, fields: "
              ++ V.names V.init ++ " - types: " ++ V.serialise V.init ++ "\";",
            ret := none, U := u }
  | .other_exception => .raised ("unknown error is parsing: " ++ join line ',')
  | .record c =>
    let r := V.run c u
    .done { response := "<" ++ V.serialise c ++ "," ++ r.1.get_message ++ ";",
            ret := some r.1, U := r.2 }

/-- The instantiations of `handle< C >` in `process_command`. -/
inductive kind where
  | move_cam | set_position | set_home | enable | release_brakes | auto_init
  | move_joints | joint_move
deriving DecidableEq, Repr

/-- The command record types of `commands.h`, the constant
`arm::move_joints::fields` and the error codes. -/
structure arm (U : Type) where
  errors : errors
  move_cam : command U
  set_position : command U
  set_home : command U
  enable : command U
  release_brakes : command U
  auto_init : command U
  move_joints : command U
  joint_move : command U
  move_joints_fields : Nat

/-- The record type behind each instantiation. -/
def arm.variant {U : Type} (A : arm U) : kind → command U
  | .move_cam => A.move_cam
  | .set_position => A.set_position
  | .set_home => A.set_home
  | .enable => A.enable
  | .release_brakes => A.release_brakes
  | .auto_init => A.auto_init
  | .move_joints => A.move_joints
  | .joint_move => A.joint_move

/-- What a call of `process_command` that returns has done. -/
structure processed (U : Type) where
  /-- The instantiation of `handle` that was called, if any. -/
  handler : Option kind
  /-- The result of the action; `none` when no action was run. -/
  ret : Option result
  /-- The strings passed to `output`, each written to `std::cout` with `std::endl`. -/
  cout : List String
  /-- The input registers afterwards. -/
  U : U

/-- The statement `output( handle< C >( v, os ) );` for the instantiation `k`. -/
def output_handle {U : Type} (A : arm U) (k : kind) (v : List String) (u : U) :
    outcome (processed U) :=
  match handle A.errors (A.variant k) v u with
  | .done h => .done { handler := some k, ret := h.ret, cout := [h.response], U := h.U }
  | .raised what => .raised what
  | .undefined => .undefined
  | .diverges => .diverges

/-- The function `process_command( v, os )`. -/
def process_command {U : Type} (A : arm U) (v : List String) (u : U) :
    outcome (processed U) :=
  match v.get? 2 with
  | none => .undefined
  | some v2 =>
    if iequals v2 "move_cam" then output_handle A .move_cam v u
    else if iequals v2 "set_pos" then output_handle A .set_position v u
    else if iequals v2 "set_home" then output_handle A .set_home v u
    else if iequals v2 "enable" then output_handle A .enable v u
    else if iequals v2 "release_brakes" then output_handle A .release_brakes v u
    else if iequals v2 "auto_init" then output_handle A .auto_init v u
    else if iequals v2 "movej" then
      if v.length = A.move_joints_fields then output_handle A .move_joints v u
      else output_handle A .joint_move v u
    else
      .done { handler := none, ret := none,
              cout := [join_n v v.length ',' ++ "," ++ str A.errors.unknown_command
                        ++ ",\"unknown command found: '" ++ v2 ++ "'\""],
              U := u }

/-- The instantiation of `handle< C >` that the conditions of `process_command`
pick for the third token `v2` of a line of `n` tokens; `none` at the final
`else`. -/
def arm.chosen {U : Type} (A : arm U) (v2 : String) (n : Nat) : Option kind :=
  if iequals v2 "move_cam" then some .move_cam
  else if iequals v2 "set_pos" then some .set_position
  else if iequals v2 "set_home" then some .set_home
  else if iequals v2 "enable" then some .enable
  else if iequals v2 "release_brakes" then some .release_brakes
  else if iequals v2 "auto_init" then some .auto_init
  else if iequals v2 "movej" then
    if n = A.move_joints_fields then some .move_joints else some .joint_move
  else none

/-! ## The status stream -/

/-- The part of the status stream that `read_status` uses: the bytes received
and not yet extracted (a byte is a natural number), and whether `good()` holds. -/
structure istream where
  buffered : List Nat
  good : Bool
deriving DecidableEq, Repr

/-- The call `iss->read( buffer, n )`: on a stream that is not good nothing is
extracted; otherwise up to `n` buffered bytes are stored at the start of
`buffer`, and when fewer than `n` were there the stream stops being good. -/
def istream.read (iss : istream) (buffer : List Nat) (n : Nat) : istream × List Nat :=
  if iss.good then
    let got := iss.buffered.take n
    ({ buffered := iss.buffered.drop n, good := decide (got.length = n) },
      got ++ buffer.drop got.length)
  else (iss, buffer)

/-- The function `ready( is )`: `is->rdbuf()->in_avail() > 0`. -/
def ready (iss : istream) : Bool := decide (0 < iss.buffered.length)

/-- The loop `while( ready( iss ) ) { iss->read( buffer, max_buf ); }`, run for at
most `fuel` evaluations of its condition; `none` when it has not ended by then. -/
def drain (max_buf : Nat) : Nat → istream → List Nat → Option (istream × List Nat)
  | 0, _, _ => none
  | fuel + 1, iss, buffer =>
    if ready iss then
      drain max_buf fuel (iss.read buffer max_buf).1 (iss.read buffer max_buf).2
    else some (iss, buffer)

/-- What a call of `read_status` that returns has done. -/
structure status_read where
  /-- The frame the returned pointer points to; `none` for `NULL`. -/
  frame : Option (List Nat)
  /-- The stream afterwards. -/
  iss : istream
  /-- The static buffer afterwards. -/
  buffer : List Nat
deriving DecidableEq, Repr

/-- The function `read_status( iss )`, where `max_buf` is
`sizeof( arm::fixed_status )` and `buffer` is the static buffer of that size. -/
def read_status (max_buf fuel : Nat) (iss : istream) (buffer : List Nat) :
    Option status_read :=
  let r := iss.read buffer max_buf
  if !r.1.good then some { frame := none, iss := r.1, buffer := r.2 }
  else
    match drain max_buf fuel r.1 r.2 with
    | none => none
    | some d => some { frame := some d.2, iss := d.1, buffer := d.2 }

/-! ## The control loop -/

/-- The Simulink interface (declared in `Arm_Controller.h`): input registers
`U`, output registers `Y`, internal state `S`. -/
structure engine (U Y S : Type) where
  /-- The all-zero input block left by `memset( &Arm_Controller_U, 0, ... )`. -/
  zero : U
  /-- The assignment `Arm_Controller_U.motion_primitive = real_T( input_primitive::no_action )`. -/
  no_action : U → U
  /-- The call `Arm_Controller_step()`. -/
  step : S → U → Y → S × Y
  /-- The field `Arm_Controller_Y.command_flag`. -/
  command_flag : Y → Int
  /-- The member `arm_output::serialise`. -/
  serialise : Y → String
  /-- The frame `arm_output::write_arm_status` writes to the publisher. -/
  positions : Y → List Nat

/-- What a tick does, in order (a record kept for stating the order of steps). -/
inductive event where
  | status_read | dispatched | stepped | sent | inputs_reset | published | slept
deriving DecidableEq, Repr

/-- The state the loop of `main` works on. -/
structure loop (U Y S : Type) where
  Arm_Controller_U : U
  Arm_Controller_Y : Y
  /-- The internal state of the engine. -/
  DW : S
  /-- The queue of `arm::inputs`. -/
  inputs : List (List String)
  cout : List String
  robot_arm : List String
  publisher : List (List Nat)
  pstatus : Option (List Nat)
  status_stream : istream
  /-- The static buffer of `read_status`. -/
  buffer : List Nat
  /-- The steps taken so far, oldest first. -/
  events : List event

/-- What reaches a tick from outside. -/
structure tick_input where
  /-- The value of `select.read().ready( status_stream.fd() )`. -/
  select_ready : Bool
  /-- Modelled from the spec: `inputs.read()` (declared in `inputs.h`) pulls
  "new command lines into the Command Source's queue"; these are the lines. -/
  lines : List (List String)

/-- The status part of a tick: `if( ready( status_stream ) || ... ) { pstatus = read_status( status_stream ); ... }`. -/
def poll_status {U Y S : Type} (max_buf : Nat) (s : loop U Y S) (i : tick_input) :
    Option (loop U Y S) :=
  if ready s.status_stream || i.select_ready then
    match read_status max_buf (s.status_stream.buffered.length + 1) s.status_stream s.buffer with
    | none => none
    | some r => some { s with pstatus := r.frame, status_stream := r.iss, buffer := r.buffer,
                              events := s.events ++ [event.status_read] }
  else some s

/-- The command part of a tick: `if( !inputs.is_empty() ) { process_command( inputs.front(), robot_arm ); inputs.pop(); }`. -/
def dispatch {U Y S : Type} (A : arm U) (s : loop U Y S) : outcome (loop U Y S) :=
  match s.inputs with
  | [] => .done s
  | v :: rest =>
    match process_command A v s.Arm_Controller_U with
    | .done p => .done { s with Arm_Controller_U := p.U, cout := s.cout ++ p.cout, inputs := rest,
                                events := s.events ++ [event.dispatched] }
    | .raised what => .raised what
    | .undefined => .undefined
    | .diverges => .diverges

/-- The rest of a tick, from `Arm_Controller_step()` to `usleep( usec )`. -/
def step_and_send {U Y S : Type} (E : engine U Y S) (s : loop U Y S) : loop U Y S :=
  let r := E.step s.DW s.Arm_Controller_U s.Arm_Controller_Y
  let s1 := { s with DW := r.1, Arm_Controller_Y := r.2, events := s.events ++ [event.stepped] }
  let s2 :=
    if 0 < E.command_flag s1.Arm_Controller_Y then
      { s1 with robot_arm := s1.robot_arm ++ [E.serialise s1.Arm_Controller_Y],
                Arm_Controller_U := E.no_action s1.Arm_Controller_U,
                events := s1.events ++ [event.sent] }
    else s1
  let s3 := { s2 with Arm_Controller_U := E.zero, events := s2.events ++ [event.inputs_reset] }
  { s3 with publisher := s3.publisher ++ [E.positions s3.Arm_Controller_Y],
            events := s3.events ++ [event.published, event.slept] }

/-- The body of `while( !signaled && std::cin.good() )`: one tick. -/
def tick {U Y S : Type} (A : arm U) (E : engine U Y S) (max_buf : Nat) (s : loop U Y S)
    (i : tick_input) : outcome (loop U Y S) :=
  match poll_status max_buf s i with
  | none => .diverges
  | some s1 =>
    match dispatch A { s1 with inputs := s1.inputs ++ i.lines } with
    | .done s2 => .done (step_and_send E s2)
    | .raised what => .raised what
    | .undefined => .undefined
    | .diverges => .diverges

/-- The ticks of a run, one for each element of `is`, as long as they return. -/
def ticks {U Y S : Type} (A : arm U) (E : engine U Y S) (max_buf : Nat) :
    loop U Y S → List tick_input → outcome (loop U Y S)
  | s, [] => .done s
  | s, i :: is =>
    match tick A E max_buf s i with
    | .done s1 => ticks A E max_buf s1 is
    | .raised what => .raised what
    | .undefined => .undefined
    | .diverges => .diverges

/-- The names `process_command` compares `v[2]` with. -/
def command_names : List String :=
  ["move_cam", "set_pos", "set_home", "enable", "release_brakes", "auto_init", "movej"]

/-! ## A sample arm

The command records, performers and engine below stand in for the declarations
of the other headers. They are used only to run the code above on concrete inputs. -/

/-- Sample input registers: the motion primitive selector and its parameters. -/
structure sample_U where
  motion_primitive : Int
  parameters : List Int
deriving DecidableEq, Repr

/-- Sample command record: identifier, sequence number, name and arguments. -/
structure sample_record where
  rover_id : Int
  sequence_number : Int
  name : String
  arguments : List Int
deriving DecidableEq, Repr

/-- Decimal digits to a number, `none` at any other character. -/
def digits : List Char → Nat → Option Nat
  | [], acc => some acc
  | c :: cs, acc => if c.isDigit then digits cs (10 * acc + (c.toNat - 48)) else none

/-- A token as an integer, the way a lexical cast reads it. -/
def number (s : String) : Option Int :=
  match s.data with
  | [] => none
  | '-' :: c :: cs => (digits (c :: cs) 0).map fun n => - (n : Int)
  | cs => (digits cs 0).map Int.ofNat

/-- All tokens as integers, `none` when one fails. -/
def numbers : List String → Option (List Int)
  | [] => some []
  | t :: ts =>
    match number t, numbers ts with
    | some n, some ns => some (n :: ns)
    | _, _ => none

/-- Modelled from the spec: the parser of a command record (`commands.h` and the
codec it uses are declared elsewhere) reads the tokens "into that variant's
typed fields using the canonical per-field text codec"; here every field but
the name is an integer. A wrong token count is a `comma::exception`, a token
that is not a number where one is expected is a `bad_lexical_cast`. -/
def sample_get (fields : List String) (line : List String) : parsed sample_record :=
  match line with
  | id :: seq :: name :: args =>
    if args.length = fields.length then
      match number id, number seq, numbers args with
      | some i, some n, some xs =>
        .record { rover_id := i, sequence_number := n, name := name, arguments := xs }
      | _, _, _ => .bad_lexical_cast
    else .comma_exception
  | _ => .comma_exception

/-- Modelled from the spec: the member `serialise` of a command record gives "the
canonical re-serialization of the parsed record": its fields in order, each in
the text of the per-field codec, separated by commas. -/
def sample_serialise (c : sample_record) : String :=
  join (toString c.rover_id :: toString c.sequence_number :: c.name
          :: c.arguments.map fun x => toString x) ','

/-- Modelled from the spec: a performer (declared in `action.h`) writes the
primitive selector and the parameters into the input registers, and "must reject
out-of-range numeric input (e.g., angle bounds) by returning a domain error code
distinct from `format_error`". -/
def sample_run (primitive limit : Int) (c : sample_record) (u : sample_U) :
    result × sample_U :=
  if c.arguments.all fun x => decide (-limit ≤ x ∧ x ≤ limit) then
    ({ code := 0, message := "success" },
      { motion_primitive := primitive, parameters := c.arguments })
  else ({ code := 1, message := "invalid input" }, u)

/-- Sample command record type with the given argument fields. -/
def sample_command (primitive limit : Int) (fields : List String) : command sample_U where
  C := sample_record
  init := { rover_id := 0, sequence_number := 0, name := "", arguments := fields.map fun _ => 0 }
  get := sample_get fields
  names := fun _ => join ("rover_id" :: "sequence_number" :: "name" :: fields) ','
  serialise := sample_serialise
  run := sample_run primitive limit

/-- Sample command record type whose parser throws something that is neither a
`bad_lexical_cast` nor a `comma::exception`. -/
def faulty_command : command sample_U where
  C := sample_record
  init := { rover_id := 0, sequence_number := 0, name := "", arguments := [] }
  get := fun _ => .other_exception
  names := fun _ => "rover_id,sequence_number,name"
  serialise := sample_serialise
  run := sample_run 0 0

/-- Sample set of command record types, with sample error codes. -/
def sample_arm : arm sample_U where
  errors := { format_error := 402, unknown_command := 401 }
  move_cam := sample_command 1 180 ["pan", "tilt", "height"]
  set_position := sample_command 2 1 ["position"]
  set_home := sample_command 3 0 []
  enable := sample_command 4 0 []
  release_brakes := sample_command 5 0 []
  auto_init := sample_command 6 0 []
  move_joints := sample_command 7 360 ["joint1", "joint2", "joint3", "joint4", "joint5", "joint6"]
  joint_move := sample_command 8 360 ["joint_id", "dir"]
  move_joints_fields := 9

/-- The sample arm with a faulty `enable` parser. -/
def faulty_arm : arm sample_U := { sample_arm with enable := faulty_command }

/-- Sample output registers. -/
structure sample_Y where
  command_flag : Int
  joint_angle_vector : List Int
deriving DecidableEq, Repr

/-- Sample engine: a primitive selector other than zero makes the step raise the
command flag and copy the parameters to the joint angles. -/
def sample_engine : engine sample_U sample_Y Nat where
  zero := { motion_primitive := 0, parameters := [] }
  no_action := fun u => { u with motion_primitive := 0 }
  step := fun n u y =>
    (n + 1, if u.motion_primitive = 0 then { y with command_flag := 0 }
            else { command_flag := 1, joint_angle_vector := u.parameters })
  command_flag := fun y => y.command_flag
  serialise := fun y =>
    "movej([" ++ join (y.joint_angle_vector.map fun x => toString x) ',' ++ "],a=0.5,v=0.1)"
  positions := fun y => y.joint_angle_vector.map Int.toNat

/-- Sample loop state: nothing queued, nothing written, nothing received. -/
def sample_loop : loop sample_U sample_Y Nat where
  Arm_Controller_U := { motion_primitive := 0, parameters := [] }
  Arm_Controller_Y := { command_flag := 0, joint_angle_vector := [0, 0, 0, 0, 0, 0] }
  DW := 0
  inputs := []
  cout := []
  robot_arm := []
  publisher := []
  pstatus := none
  status_stream := { buffered := [], good := true }
  buffer := [0, 0]
  events := []

/-- Sample tick input: the status link is quiet and the line `1,7,enable` arrives. -/
def sample_input : tick_input where
  select_ready := false
  lines := [["1", "7", "enable"]]

/-- Sample tick input: the status link is quiet and no line arrives. -/
def idle_input : tick_input where
  select_ready := false
  lines := []

/-- The sample loop state after one tick with `sample_input`. -/
def sample_after : loop sample_U sample_Y Nat where
  Arm_Controller_U := { motion_primitive := 0, parameters := [] }
  Arm_Controller_Y := { command_flag := 1, joint_angle_vector := [] }
  DW := 1
  inputs := []
  cout := ["<1,7,enable,0,\"success\";"]
  robot_arm := ["movej([],a=0.5,v=0.1)"]
  publisher := [[]]
  pstatus := none
  status_stream := { buffered := [], good := true }
  buffer := [0, 0]
  events := [event.dispatched, event.stepped, event.sent, event.inputs_reset,
    event.published, event.slept]

/-! ## The function `main` -/

/-- The number of binary digits of `n`, with `fuel` steps at hand. -/
def bit_length_aux : Nat → Nat → Nat
  | 0, _ => 0
  | fuel + 1, n => if n = 0 then 0 else bit_length_aux fuel (n / 2) + 1

/-- The number of binary digits of `n`: zero for zero, else `⌊log₂ n⌋ + 1`. -/
def bit_length (n : Nat) : Nat := bit_length_aux n n

/-- A value of the type `double` (IEEE 754 binary64, as on every platform the
program is built for): `finite s m e` is `m * 2^e`, negated when `s` holds; a
value the format holds has `m < 2^53` and `-1074 ≤ e`. -/
inductive double where
  | finite (negative : Bool) (m : Nat) (e : Int)
  | infinite (negative : Bool)
  | nan
deriving DecidableEq, Repr

/-- The `double` nearest to the exact value `m * 2^e` (negated when `negative`),
ties to the even significand, which is the rounding of every arithmetic
operation on `double`: the significand is cut to 53 binary digits, and a result
of `2^1024` or more is an infinity. For `-1074 ≤ e` no result is too small for
the format. -/
def double.round (negative : Bool) (m : Nat) (e : Int) : double :=
  let shift := bit_length m - 53
  let q := m / 2 ^ shift
  let r := m % 2 ^ shift
  let q1 := if 2 ^ shift < 2 * r ∨ (2 * r = 2 ^ shift ∧ q % 2 = 1) then q + 1 else q
  if 1024 < (bit_length q1 : Int) + (e + shift) then .infinite negative
  else .finite negative q1 (e + shift)

/-- The product `x * n` of a `double` and an `unsigned int`: `n` is converted to
`double` exactly, and the exact product is rounded. -/
def double.mul_unsigned : double → Nat → double
  | .finite s m e, n => double.round s (m * n) e
  | .infinite s, n => if n = 0 then .nan else .infinite s
  | .nan, _ => .nan

/-- The conversion of a `double` to `comma::uint32`: the value cut toward zero,
`none` when that integer does not fit (the conversion is then undefined). -/
def double.to_uint32 : double → Option Nat
  | .finite s m e =>
    let t := if 0 ≤ e then m * 2 ^ e.toNat else m / 2 ^ (-e).toNat
    if t = 0 then some 0
    else if s then none
    else if t < 4294967296 then some t else none
  | .infinite _ => none
  | .nan => none

/-- The literal `0.1`: the `double` nearest to one tenth, `7205759403792794 * 2^(-56)`. -/
def tenth : double := .finite false 7205759403792794 (-56)

/-- The command line as `comma::command_line_options` gives it to `main`: for an
option with a value, `none` when `options.value< T >` throws `comma::exception`
because the option is not given. -/
structure options where
  /-- The value of `options.exists( "-h,--help" )`. -/
  help : Bool
  id : Option Nat
  /-- The `double` that `options.value< double >( "--sleep" )` returns, `none` when
  `options.exists( "--sleep" )` is false. -/
  sleep : Option double
  status_port : Option Nat
  verbose : Bool
  robot_arm_host : Option String
  robot_arm_port : Option String
  robot_arm_status : Option String

/-- The lines `double sleep = 0.1; if( options.exists( "--sleep" ) ) { sleep = options.value< double >( "--sleep" ); }`. -/
def sleep_seconds (o : options) : double :=
  match o.sleep with
  | some s => s
  | none => tenth

/-- The line `const comma::uint32 usec( sleep * 1000000u );`. -/
def usec (o : options) : Option Nat :=
  ((sleep_seconds o).mul_unsigned 1000000).to_uint32

/-- What happens around a run of `main`. -/
structure world where
  /-- The value `tcp_connect` returns. -/
  connects : Bool
  /-- Whether the publisher and the status stream open without throwing. -/
  opens : Bool
  /-- One input for each time `!signaled && std::cin.good()` holds; after them the
  condition fails: a signal was seen or standard input is at its end. -/
  inputs : List tick_input

/-- The function `main`, from the loop state `s` that the constructors leave; the result is the exit
status of the process. -/
def main {U Y S : Type} (A : arm U) (E : engine U Y S) (max_buf : Nat) (o : options)
    (w : world) (s : loop U Y S) : outcome Nat :=
  if o.help then .done 0
  else
    match o.id, o.status_port, o.robot_arm_host, o.robot_arm_port, o.robot_arm_status with
    | some _, some _, some _, some _, some _ =>
      if !w.connects then .done 1
      else if !w.opens then .done 1
      else
        match ticks A E max_buf s w.inputs with
        | .done _ => .done 0
        | .raised _ => .done 1
        | .undefined => .undefined
        | .diverges => .diverges
    | _, _, _, _, _ => .done 1

/-- Sample command line: every required option, no `--help`, no `--sleep`. -/
def sample_options : options where
  help := false
  id := some 7
  sleep := none
  status_port := some 9999
  verbose := false
  robot_arm_host := some "192.168.0.10"
  robot_arm_port := some "8888"
  robot_arm_status := some "8889"

/-- Sample surroundings: the arm accepts the connection and standard input is at
its end before the first tick. -/
def quiet_world : world where
  connects := true
  opens := true
  inputs := []

/-- Sample surroundings: the arm accepts the connection and the loop runs two
ticks before a signal ends it. -/
def sample_world : world where
  connects := true
  opens := true
  inputs := [sample_input, idle_input]

end Ur10

/-! ## Rotation matrices

A shallow embedding of `src/math/rotation_matrix.cpp` over the real numbers:
`double` is `ℝ`, `Eigen::Matrix3d` is a three by three real matrix and
`Eigen::Vector3d` is a triple. -/

namespace rotation_matrix

/-- The function `std::atan2( y, x )` over the reals: the angle in `(-π, π]` of
the point `(x, y)`, and `0` at the origin. -/
noncomputable def atan2 (y x : ℝ) : ℝ := Complex.arg ⟨x, y⟩

/-- The static member `rotation_matrix::roll_pitch_yaw( m )`. The function
`std::asin` is `Real.arcsin`, which agrees with it on `[-1, 1]`. -/
noncomputable def roll_pitch_yaw (m : Matrix (Fin 3) (Fin 3) ℝ) : ℝ × ℝ × ℝ :=
  let pitch := Real.arcsin (-m 2 0)
  if m 2 0 = 1 ∨ m 2 0 = -1 then
    (0, pitch, atan2 (m 1 2) (m 0 2))
  else
    (atan2 (m 2 1) (m 2 2), pitch, atan2 (m 1 0) (m 0 0))

/-- The static member `rotation_matrix::rotation( roll, pitch, yaw )`. -/
noncomputable def rotation (roll pitch yaw : ℝ) : Matrix (Fin 3) (Fin 3) ℝ :=
  let sr := Real.sin roll
  let cr := Real.cos roll
  let sp := Real.sin pitch
  let cp := Real.cos pitch
  let sy := Real.sin yaw
  let cy := Real.cos yaw
  let spcy := sp * cy
  let spsy := sp * sy
  !![cp * cy, -cr * sy + sr * spcy, sr * sy + cr * spcy;
     cp * sy, cr * cy + sr * spsy, -sr * cy + cr * spsy;
     -sp, sr * cp, cr * cp]

/-- The static member `rotation_matrix::rotation( rpy )`. -/
noncomputable def rotation_rpy (rpy : ℝ × ℝ × ℝ) : Matrix (Fin 3) (Fin 3) ℝ :=
  rotation rpy.1 rpy.2.1 rpy.2.2

/-- The elementary rotation about the x axis by the angle `a`. -/
noncomputable def Rx (a : ℝ) : Matrix (Fin 3) (Fin 3) ℝ :=
  !![1, 0, 0;
     0, Real.cos a, -Real.sin a;
     0, Real.sin a, Real.cos a]

/-- The elementary rotation about the y axis by the angle `a`. -/
noncomputable def Ry (a : ℝ) : Matrix (Fin 3) (Fin 3) ℝ :=
  !![Real.cos a, 0, Real.sin a;
     0, 1, 0;
     -Real.sin a, 0, Real.cos a]

/-- The elementary rotation about the z axis by the angle `a`. -/
noncomputable def Rz (a : ℝ) : Matrix (Fin 3) (Fin 3) ℝ :=
  !![Real.cos a, -Real.sin a, 0;
     Real.sin a, Real.cos a, 0;
     0, 0, 1]

end rotation_matrix

namespace Ur10

/-! ## The dispatcher -/

/-- The three-argument `comma::join` over the whole line is the two-argument one. -/
theorem join_n_length (v : List String) (d : Char) : join_n v v.length d = join v d := by
  simp [join_n]

/-- A name that matches `movej` matches none of the names tested before it. -/
theorem iequals_movej_only (v2 : String) (h : iequals v2 "movej" = true) :
    iequals v2 "move_cam" = false ∧ iequals v2 "set_pos" = false ∧
    iequals v2 "set_home" = false ∧ iequals v2 "enable" = false ∧
    iequals v2 "release_brakes" = false ∧ iequals v2 "auto_init" = false := by
  simp only [iequals, beq_iff_eq] at h
  simp only [iequals, h]
  decide

/-- With a third token, `process_command` either runs one `output( handle< C >( v, os ) )`
or takes the unknown-command branch. -/
theorem process_command_cases {U : Type} (A : arm U) (v : List String) (u : U) (v2 : String)
    (h2 : v.get? 2 = some v2) :
    (∃ k, process_command A v u = output_handle A k v u) ∨
    process_command A v u = .done
      { handler := none, ret := none,
        cout := [join v ',' ++ "," ++ str A.errors.unknown_command
                  ++ ",\"unknown command found: '" ++ v2 ++ "'\""],
        U := u } := by
  simp only [process_command, h2, join_n_length]
  split_ifs
  all_goals first
    | exact Or.inr rfl
    | exact Or.inl ⟨_, rfl⟩

/-- What `output( handle< C >( v, os ) )` does, by the outcome of the parser. -/
theorem output_handle_cases {U : Type} (A : arm U) (k : kind) (v : List String) (u : U) :
    ((A.variant k).get v ≠ .other_exception ∧
      ∃ p line, output_handle A k v u = .done p ∧ p.cout = [line] ∧ p.handler = some k) ∨
    ((A.variant k).get v = .other_exception ∧
      output_handle A k v u = .raised ("unknown error is parsing: " ++ join v ',')) := by
  unfold output_handle handle
  cases hg : (A.variant k).get v with
  | record c => exact Or.inl ⟨by simp, _, _, rfl, rfl, rfl⟩
  | bad_lexical_cast => exact Or.inl ⟨by simp, _, _, rfl, rfl, rfl⟩
  | comma_exception => exact Or.inl ⟨by simp, _, _, rfl, rfl, rfl⟩
  | other_exception => exact Or.inr ⟨rfl, rfl⟩

/-- C1: a line with a third token that matches none of the seven command names
(ignoring case) calls no `handle< C >`, runs no action, leaves the input
registers alone, and writes exactly one line: the tokens joined by commas, a
comma, the `unknown_command` code in decimal, a comma, and the quoted message
holding the third token as given. -/
theorem process_command_unknown_command {U : Type} (A : arm U) (v : List String) (u : U)
    (v2 : String) (h2 : v.get? 2 = some v2)
    (hn : ∀ n ∈ command_names, iequals v2 n = false) :
    process_command A v u = .done
      { handler := none, ret := none,
        cout := [join v ',' ++ "," ++ str A.errors.unknown_command
                  ++ ",\"unknown command found: '" ++ v2 ++ "'\""],
        U := u } := by
  have h1 := hn "move_cam" (by simp [command_names])
  have h2a := hn "set_pos" (by simp [command_names])
  have h3 := hn "set_home" (by simp [command_names])
  have h4 := hn "enable" (by simp [command_names])
  have h5 := hn "release_brakes" (by simp [command_names])
  have h6 := hn "auto_init" (by simp [command_names])
  have h7 := hn "movej" (by simp [command_names])
  simp only [process_command, h2, join_n_length, h1, h2a, h3, h4, h5, h6, h7]
  rfl

/-- C1 at the line `1,7,foo`. -/
theorem process_command_unknown_command_witness :
    process_command sample_arm ["1", "7", "foo"] sample_loop.Arm_Controller_U = .done
      { handler := none, ret := none,
        cout := [join ["1", "7", "foo"] ',' ++ "," ++ str sample_arm.errors.unknown_command
                  ++ ",\"unknown command found: '" ++ "foo" ++ "'\""],
        U := sample_loop.Arm_Controller_U } :=
  process_command_unknown_command sample_arm ["1", "7", "foo"] sample_loop.Arm_Controller_U
    "foo" (by decide) (by decide)

/-- C2: when the parser of the record type throws `bad_lexical_cast` or
`comma::exception`, `handle< C >` does not run the action (no result, input
registers unchanged) and returns `<`, the tokens joined by commas, a comma, the
`format_error` code, and a quoted message that holds `c.names()` after `fields: `
and `c.serialise()` of the default record after ` - types: `, closed by `;`. -/
theorem handle_format_error {U : Type} (e : errors) (V : command U) (line : List String)
    (u : U) :
    (V.get line = .bad_lexical_cast →
      handle e V line u = .done
        { response := "<" ++ join line ',' ++ "," ++ str e.format_error
            ++ ",\"command format error, wrong field type/s, fields: " ++ V.names V.init
            ++ " - types: " ++ V.serialise V.init ++ "\";",
          ret := none, U := u }) ∧
    (V.get line = .comma_exception →
      handle e V line u = .done
        { response := "<" ++ join line ',' ++ "," ++ str e.format_error
            ++ ",\"command format error, wrong field/s or field type/s, fields: "
            ++ V.names V.init ++ " - types: " ++ V.serialise V.init ++ "\";",
          ret := none, U := u }) := by
  constructor <;> intro h <;> simp [handle, h]

/-- C2 at `1,7,movej,3,x` (a wrong field type) and at `1,7,enable,3` (a wrong
field count). -/
theorem handle_format_error_witness :
    handle sample_arm.errors sample_arm.joint_move ["1", "7", "movej", "3", "x"]
        sample_loop.Arm_Controller_U = .done
      { response := "<1,7,movej,3,x,402,\"command format error, wrong field type/s, fields: rover_id,sequence_number,name,joint_id,dir - types: 0,0,,0,0\";",
        ret := none, U := sample_loop.Arm_Controller_U } ∧
    handle sample_arm.errors sample_arm.enable ["1", "7", "enable", "3"]
        sample_loop.Arm_Controller_U = .done
      { response := "<1,7,enable,3,402,\"command format error, wrong field/s or field type/s, fields: rover_id,sequence_number,name - types: 0,0,\";",
        ret := none, U := sample_loop.Arm_Controller_U } :=
  ⟨(handle_format_error sample_arm.errors sample_arm.joint_move
      ["1", "7", "movej", "3", "x"] sample_loop.Arm_Controller_U).1 rfl,
   (handle_format_error sample_arm.errors sample_arm.enable
      ["1", "7", "enable", "3"] sample_loop.Arm_Controller_U).2 rfl⟩

/-- C4: a line whose third token is `movej` in any letter case goes to
`handle< move_joints >` when it has `move_joints::fields` tokens and to
`handle< joint_move >` at every other token count; when `process_command`
returns, the handler that ran is `move_joints` exactly at that count and
`joint_move` exactly at the others. -/
theorem process_command_movej {U : Type} (A : arm U) (v : List String) (u : U) (v2 : String)
    (h2 : v.get? 2 = some v2) (hm : iequals v2 "movej" = true) :
    (v.length = A.move_joints_fields →
      process_command A v u = output_handle A .move_joints v u) ∧
    (v.length ≠ A.move_joints_fields →
      process_command A v u = output_handle A .joint_move v u) ∧
    ∀ p, process_command A v u = .done p →
      (p.handler = some .move_joints ↔ v.length = A.move_joints_fields) ∧
      (p.handler = some .joint_move ↔ v.length ≠ A.move_joints_fields) := by
  obtain ⟨h1, h2a, h3, h4, h5, h6⟩ := iequals_movej_only v2 hm
  have key : process_command A v u =
      if v.length = A.move_joints_fields then output_handle A .move_joints v u
      else output_handle A .joint_move v u := by
    simp only [process_command, h2, h1, h2a, h3, h4, h5, h6, hm]
    rfl
  refine ⟨fun h => by rw [key, if_pos h], fun h => by rw [key, if_neg h], ?_⟩
  intro p hp
  rw [key] at hp
  by_cases hl : v.length = A.move_joints_fields
  · rw [if_pos hl] at hp
    rcases output_handle_cases A .move_joints v u with ⟨_, q, line, hq, _, hk⟩ | ⟨_, hr⟩
    · rw [hq] at hp
      cases hp
      simp [hk, hl]
    · rw [hr] at hp
      cases hp
  · rw [if_neg hl] at hp
    rcases output_handle_cases A .joint_move v u with ⟨_, q, line, hq, _, hk⟩ | ⟨_, hr⟩
    · rw [hq] at hp
      cases hp
      simp [hk, hl]
    · rw [hr] at hp
      cases hp

/-- C4 at `1,7,MoveJ,3,4`, a line of five tokens where `move_joints::fields` is nine. -/
theorem process_command_movej_witness :
    process_command sample_arm ["1", "7", "MoveJ", "3", "4"] sample_loop.Arm_Controller_U
      = output_handle sample_arm .joint_move ["1", "7", "MoveJ", "3", "4"]
          sample_loop.Arm_Controller_U :=
  (process_command_movej sample_arm ["1", "7", "MoveJ", "3", "4"]
    sample_loop.Arm_Controller_U "MoveJ" (by decide) (by decide)).2.1 (by decide)

/-- When the conditions of `process_command` pick no instantiation, the third
token matches none of the seven command names. -/
theorem chosen_none {U : Type} (A : arm U) (v2 : String) (n : Nat)
    (h : A.chosen v2 n = none) :
    iequals v2 "move_cam" = false ∧ iequals v2 "set_pos" = false ∧
    iequals v2 "set_home" = false ∧ iequals v2 "enable" = false ∧
    iequals v2 "release_brakes" = false ∧ iequals v2 "auto_init" = false ∧
    iequals v2 "movej" = false := by
  unfold arm.chosen at h
  cases h1 : iequals v2 "move_cam" <;> rw [h1] at h
  swap
  · cases h
  cases h2 : iequals v2 "set_pos" <;> rw [h2] at h
  swap
  · cases h
  cases h3 : iequals v2 "set_home" <;> rw [h3] at h
  swap
  · cases h
  cases h4 : iequals v2 "enable" <;> rw [h4] at h
  swap
  · cases h
  cases h5 : iequals v2 "release_brakes" <;> rw [h5] at h
  swap
  · cases h
  cases h6 : iequals v2 "auto_init" <;> rw [h6] at h
  swap
  · cases h
  cases h7 : iequals v2 "movej" <;> rw [h7] at h
  swap
  · simp only [if_true] at h
    split_ifs at h
  exact ⟨rfl, rfl, rfl, rfl, rfl, rfl, rfl⟩

/-- The function `process_command` runs `output( handle< C >( v, os ) )` for the
instantiation its conditions pick, and writes the unknown-command line when
they pick none. -/
theorem process_command_chosen {U : Type} (A : arm U) (v : List String) (u : U) (v2 : String)
    (h2 : v.get? 2 = some v2) :
    (∀ k, A.chosen v2 v.length = some k → process_command A v u = output_handle A k v u) ∧
    (A.chosen v2 v.length = none →
      process_command A v u = .done
        { handler := none, ret := none,
          cout := [join v ',' ++ "," ++ str A.errors.unknown_command
                    ++ ",\"unknown command found: '" ++ v2 ++ "'\""],
          U := u }) := by
  constructor
  · intro k hk
    simp only [process_command, h2]
    unfold arm.chosen at hk
    split_ifs at hk ⊢
    all_goals
      have e := Option.some.inj hk
      rw [← e]
  · intro hn
    obtain ⟨h1, h2a, h3, h4, h5, h6, h7⟩ := chosen_none A v2 v.length hn
    simp only [process_command, h2, join_n_length, h1, h2a, h3, h4, h5, h6, h7]
    rfl

/-- C5, as amended: for a line with a third token, let `k` be the instantiation
the conditions of `process_command` pick. When the parser of `k` returns a
record, throws `bad_lexical_cast` or throws `comma::exception`, `process_command`
returns and has written exactly one response line, from `handle< k >`. When that
parser throws anything else, `process_command` throws `comma::exception` with
the text `unknown error is parsing: ` and the line, and writes nothing. When no
instantiation is picked (an unknown name), it writes exactly one response line
and calls no handler. -/
theorem process_command_response_or_raise {U : Type} (A : arm U) (v : List String) (u : U)
    (v2 : String) (h2 : v.get? 2 = some v2) :
    (∀ k, A.chosen v2 v.length = some k →
      ((A.variant k).get v ≠ .other_exception →
        ∃ p line, process_command A v u = .done p ∧ p.cout = [line] ∧ p.handler = some k) ∧
      ((A.variant k).get v = .other_exception →
        process_command A v u = .raised ("unknown error is parsing: " ++ join v ','))) ∧
    (A.chosen v2 v.length = none →
      ∃ p line, process_command A v u = .done p ∧ p.cout = [line] ∧ p.handler = none) := by
  obtain ⟨hk, hn⟩ := process_command_chosen A v u v2 h2
  refine ⟨fun k hc => ?_, fun hc => ⟨_, _, hn hc, rfl, rfl⟩⟩
  rw [hk k hc]
  rcases output_handle_cases A k v u with ⟨hne, p, line, hp, hcout, hh⟩ | ⟨he, hr⟩
  · exact ⟨fun _ => ⟨p, line, hp, hcout, hh⟩, fun he => absurd he hne⟩
  · exact ⟨fun hne => absurd he hne, fun _ => hr⟩

/-- The amended C5 at the line `1,7,enable`: the conditions pick `enable`, its
parser returns a record, and one response line is written. -/
theorem process_command_response_or_raise_witness :
    sample_arm.chosen "enable" 3 = some .enable ∧
    ∃ p line, process_command sample_arm ["1", "7", "enable"] sample_loop.Arm_Controller_U
      = .done p ∧ p.cout = [line] ∧ p.handler = some .enable :=
  ⟨by decide,
   ((process_command_response_or_raise sample_arm ["1", "7", "enable"]
      sample_loop.Arm_Controller_U "enable" (by decide)).1 .enable (by decide)).1
      (fun h => by cases h)⟩

/-- C5 fails as stated: with a parser of `enable` that throws an unclassified
exception, the line `1,7,enable` makes `process_command` throw, and it writes no
response line. -/
theorem process_command_unclassified_exception_propagates :
    process_command faulty_arm ["1", "7", "enable"] sample_loop.Arm_Controller_U
      = .raised "unknown error is parsing: 1,7,enable" ∧
    ¬ ∃ p line, process_command faulty_arm ["1", "7", "enable"] sample_loop.Arm_Controller_U
      = .done p ∧ p.cout = [line] := by
  have h : process_command faulty_arm ["1", "7", "enable"] sample_loop.Arm_Controller_U
      = .raised "unknown error is parsing: 1,7,enable" := rfl
  refine ⟨h, ?_⟩
  rintro ⟨p, line, hp, _⟩
  rw [h] at hp
  cases hp

/-- Every string `handle< C >` returns is `<`, an echo, a comma, a status code in
decimal, a comma, a quoted message and `;`. -/
theorem handle_response_shape {U : Type} (e : errors) (V : command U) (line : List String)
    (u : U) (h : handled U) (hh : handle e V line u = .done h) :
    ∃ (echo : String) (code : Int) (message : String),
      h.response = "<" ++ echo ++ "," ++ toString code ++ ",\"" ++ message ++ "\";" := by
  unfold handle at hh
  cases hg : V.get line with
  | record c =>
    rw [hg] at hh
    cases hh
    exact ⟨V.serialise c, (V.run c u).1.code, (V.run c u).1.message, by
      simp [result.get_message, String.append_assoc]⟩
  | bad_lexical_cast =>
    rw [hg] at hh
    cases hh
    exact ⟨join line ',', e.format_error,
      "command format error, wrong field type/s, fields: " ++ V.names V.init
        ++ " - types: " ++ V.serialise V.init, by
      simp only [str, String.append_assoc]
      rfl⟩
  | comma_exception =>
    rw [hg] at hh
    cases hh
    exact ⟨join line ',', e.format_error,
      "command format error, wrong field/s or field type/s, fields: " ++ V.names V.init
        ++ " - types: " ++ V.serialise V.init, by
      simp only [str, String.append_assoc]
      rfl⟩
  | other_exception =>
    rw [hg] at hh
    cases hh

/-- C6 at the line `1,7,foo`: the one line `process_command` writes for an
unknown command is `1,7,foo,401,"unknown command found: 'foo'"`; its last
character is the closing quote, not the terminator `;`. -/
theorem process_command_unknown_command_unterminated :
    ∃ p line, process_command sample_arm ["1", "7", "foo"] sample_loop.Arm_Controller_U
        = .done p ∧ p.cout = [line] ∧
      line = "1,7,foo,401,\"unknown command found: 'foo'\"" ∧
      line.data.getLast? = some '"' ∧ line.data.getLast? ≠ some ';' :=
  ⟨_, _, rfl, rfl, by decide, by decide, by decide⟩

/-! ## The control loop -/

/-- The status part of a tick writes nothing to the arm link and leaves the input
registers and the count of resets alone. -/
theorem poll_status_keeps {U Y S : Type} (max_buf : Nat) (s s1 : loop U Y S) (i : tick_input)
    (h : poll_status max_buf s i = some s1) :
    s1.robot_arm = s.robot_arm ∧ s1.Arm_Controller_U = s.Arm_Controller_U ∧
    s1.events.count event.inputs_reset = s.events.count event.inputs_reset := by
  unfold poll_status at h
  split_ifs at h
  · cases hr : read_status max_buf (s.status_stream.buffered.length + 1) s.status_stream
        s.buffer with
    | none => rw [hr] at h; cases h
    | some r =>
      rw [hr] at h
      cases h
      simp
  · cases h
    exact ⟨rfl, rfl, rfl⟩

/-- The command part of a tick writes nothing to the arm link and does not reset
the input registers. -/
theorem dispatch_keeps {U Y S : Type} (A : arm U) (s s2 : loop U Y S)
    (h : dispatch A s = .done s2) :
    s2.robot_arm = s.robot_arm ∧
    s2.events.count event.inputs_reset = s.events.count event.inputs_reset := by
  unfold dispatch at h
  split at h
  · cases h
    exact ⟨rfl, rfl⟩
  · split at h
    · cases h
      simp
    all_goals cases h

/-- A tick that returns is the status part, the command part and the rest, in
that order. -/
theorem tick_done {U Y S : Type} (A : arm U) (E : engine U Y S) (max_buf : Nat)
    (s s3 : loop U Y S) (i : tick_input) (h : tick A E max_buf s i = .done s3) :
    ∃ s1 s2, poll_status max_buf s i = some s1 ∧
      dispatch A { s1 with inputs := s1.inputs ++ i.lines } = .done s2 ∧
      s3 = step_and_send E s2 := by
  unfold tick at h
  split at h
  · cases h
  · rename_i s1 h1
    split at h
    · rename_i s2 h2
      cases h
      exact ⟨s1, s2, h1, h2, rfl⟩
    all_goals cases h

/-- What the part of a tick from the step on does to the input registers and to
the record of steps. -/
theorem step_and_send_resets {U Y S : Type} (E : engine U Y S) (s2 : loop U Y S) :
    (step_and_send E s2).Arm_Controller_U = E.zero ∧
    (step_and_send E s2).events = s2.events ++ [event.stepped]
      ++ (if 0 < E.command_flag (step_and_send E s2).Arm_Controller_Y then [event.sent] else [])
      ++ [event.inputs_reset, event.published, event.slept] := by
  by_cases hf : 0 < E.command_flag (E.step s2.DW s2.Arm_Controller_U s2.Arm_Controller_Y).2
  · simp [step_and_send, hf]
  · simp [step_and_send, hf]

/-- C8: a tick that runs to its end leaves the input registers all zero, whatever
command was dispatched and whatever the command flag is; it resets them exactly
once, and the reset comes after the step and the decision to send, before the
publication and the sleep. Hence after one or more ticks, that is at the start
of every tick after the first, the input registers are all zero. -/
theorem inputs_zero_after_tick {U Y S : Type} (A : arm U) (E : engine U Y S) (max_buf : Nat) :
    (∀ (s s3 : loop U Y S) (i : tick_input), tick A E max_buf s i = .done s3 →
      s3.Arm_Controller_U = E.zero ∧
      s3.events.count event.inputs_reset = s.events.count event.inputs_reset + 1 ∧
      ∃ s2, s3 = step_and_send E s2 ∧
        s3.events = s2.events ++ [event.stepped]
          ++ (if 0 < E.command_flag s3.Arm_Controller_Y then [event.sent] else [])
          ++ [event.inputs_reset, event.published, event.slept]) ∧
    (∀ (js : List tick_input) (s s3 : loop U Y S), js ≠ [] →
      ticks A E max_buf s js = .done s3 → s3.Arm_Controller_U = E.zero) := by
  have one : ∀ (s s3 : loop U Y S) (i : tick_input), tick A E max_buf s i = .done s3 →
      s3.Arm_Controller_U = E.zero ∧
      s3.events.count event.inputs_reset = s.events.count event.inputs_reset + 1 ∧
      ∃ s2, s3 = step_and_send E s2 ∧
        s3.events = s2.events ++ [event.stepped]
          ++ (if 0 < E.command_flag s3.Arm_Controller_Y then [event.sent] else [])
          ++ [event.inputs_reset, event.published, event.slept] := by
    intro s s3 i h
    obtain ⟨s1, s2, h1, h2, h3⟩ := tick_done A E max_buf s s3 i h
    have k1 := (poll_status_keeps max_buf s s1 i h1).2.2
    have k2 := (dispatch_keeps A _ s2 h2).2
    have kc : s2.events.count event.inputs_reset = s.events.count event.inputs_reset :=
      k2.trans k1
    obtain ⟨r1, r2⟩ := step_and_send_resets E s2
    subst h3
    refine ⟨r1, ?_, s2, rfl, r2⟩
    rw [r2]
    split_ifs <;> simp [List.count_append, kc]
  refine ⟨one, ?_⟩
  intro js
  induction js with
  | nil => intro s s3 hne; exact absurd rfl hne
  | cons i rest ih =>
    intro s s3 _ h
    cases ht : tick A E max_buf s i with
    | done s1 =>
      simp only [ticks, ht] at h
      by_cases hr : rest = []
      · subst hr
        simp only [ticks] at h
        have e := outcome.done.inj h
        rw [← e]
        exact (one s s1 i ht).1
      · exact ih s1 s3 hr h
    | raised what => simp [ticks, ht] at h
    | undefined => simp [ticks, ht] at h
    | diverges => simp [ticks, ht] at h

/-- C8 at two ticks of the sample loop, `1,7,enable` arriving in the first. -/
theorem inputs_zero_after_tick_witness :
    tick sample_arm sample_engine 2 sample_loop sample_input = .done sample_after ∧
    sample_after.Arm_Controller_U = sample_engine.zero ∧
    ∃ s3, ticks sample_arm sample_engine 2 sample_loop [sample_input, idle_input] = .done s3 ∧
      s3.Arm_Controller_U = sample_engine.zero :=
  ⟨rfl,
   ((inputs_zero_after_tick sample_arm sample_engine 2).1 sample_loop sample_after
      sample_input rfl).1,
   step_and_send sample_engine sample_after, rfl,
   (inputs_zero_after_tick sample_arm sample_engine 2).2 [sample_input, idle_input]
      sample_loop (step_and_send sample_engine sample_after) (by simp) rfl⟩

/-! ## The status stream -/

/-- Reading a complete frame from a good stream stores the frame in the buffer
and leaves the stream good. -/
theorem read_frame (m : Nat) (f rest buffer : List Nat) (hf : f.length = m)
    (hb : buffer.length = m) :
    istream.read { buffered := f ++ rest, good := true } buffer m
      = ({ buffered := rest, good := true }, f) := by
  subst hf
  simp [istream.read, hb]

/-- Reading from a good stream that holds fewer bytes than a frame stores them
over the start of the buffer and leaves the stream empty and not good. -/
theorem read_short (m : Nat) (t buffer : List Nat) (ht : t.length < m) :
    istream.read { buffered := t, good := true } buffer m
      = ({ buffered := [], good := false }, t ++ buffer.drop t.length) := by
  have h1 : List.take m t = t := List.take_of_length_le (Nat.le_of_lt ht)
  have h2 : List.drop m t = [] := List.drop_of_length_le (Nat.le_of_lt ht)
  simp [istream.read, h1, h2, Nat.ne_of_lt ht]

/-- The last element of a list that has one does not depend on the fallback. -/
theorem getLast_getD_cons {α : Type} (g : α) (gs : List α) (a b : α) :
    (g :: gs).getLast?.getD a = (g :: gs).getLast?.getD b := by
  rw [List.getLast?_eq_getLast _ (List.cons_ne_nil g gs)]
  rfl

/-- The loop of `read_status` over complete frames reads them all and keeps the
last one. -/
theorem drain_frames (m : Nat) (hm : 0 < m) :
    ∀ (frames : List (List Nat)) (fuel : Nat) (buffer : List Nat),
      (∀ f ∈ frames, f.length = m) → buffer.length = m → frames.length < fuel →
      drain m fuel { buffered := frames.flatten, good := true } buffer
        = some ({ buffered := [], good := true }, frames.getLast?.getD buffer) := by
  intro frames
  induction frames with
  | nil =>
    intro fuel buffer _ _ hfuel
    obtain ⟨n, rfl⟩ : ∃ n, fuel = n + 1 := ⟨fuel - 1, by omega⟩
    simp [drain, ready]
  | cons f fs ih =>
    intro fuel buffer hf hb hfuel
    obtain ⟨n, rfl⟩ : ∃ n, fuel = n + 1 := ⟨fuel - 1, by omega⟩
    have hfl : f.length = m := hf f (List.mem_cons_self _ _)
    have hne : f ≠ [] := by
      intro h0
      rw [h0] at hfl
      simp at hfl
      omega
    have hr : ready { buffered := (f :: fs).flatten, good := true } = true := by
      cases f with
      | nil => exact absurd rfl hne
      | cons a as => simp [ready]
    have hread := read_frame m f fs.flatten buffer hfl hb
    have hj : (f :: fs).flatten = f ++ fs.flatten := rfl
    rw [drain, hr, if_pos rfl, hj, hread]
    have := ih n f (fun g hg => hf g (List.mem_cons_of_mem _ hg)) hfl
      (by simp at hfuel; omega)
    simp only [this]
    cases fs with
    | nil => rfl
    | cons g gs => simp [List.getLast?_cons_cons, getLast_getD_cons g gs f buffer]

/-- The loop of `read_status` over complete frames followed by a few bytes of the
next one: the bytes land on the start of the last complete frame. -/
theorem drain_frames_short (m : Nat) (hm : 0 < m) (t : List Nat) (ht : t.length < m)
    (hne : t ≠ []) :
    ∀ (frames : List (List Nat)) (fuel : Nat) (buffer : List Nat),
      (∀ f ∈ frames, f.length = m) → buffer.length = m → frames.length + 1 < fuel →
      drain m fuel { buffered := frames.flatten ++ t, good := true } buffer
        = some ({ buffered := [], good := false },
            t ++ (frames.getLast?.getD buffer).drop t.length) := by
  intro frames
  induction frames with
  | nil =>
    intro fuel buffer _ _ hfuel
    obtain ⟨n, rfl⟩ : ∃ n, fuel = n + 2 := ⟨fuel - 2, by simp at hfuel; omega⟩
    have hr : ready { buffered := [].flatten ++ t, good := true } = true := by
      cases t with
      | nil => exact absurd rfl hne
      | cons a as => simp [ready]
    have hj : ([] : List (List Nat)).flatten ++ t = t := rfl
    rw [drain, hr, if_pos rfl, hj, read_short m t buffer ht]
    simp [drain, ready]
  | cons f fs ih =>
    intro fuel buffer hf hb hfuel
    obtain ⟨n, rfl⟩ : ∃ n, fuel = n + 1 := ⟨fuel - 1, by omega⟩
    have hfl : f.length = m := hf f (List.mem_cons_self _ _)
    have hfne : f ≠ [] := by
      intro h0
      rw [h0] at hfl
      simp at hfl
      omega
    have hr : ready { buffered := (f :: fs).flatten ++ t, good := true } = true := by
      cases f with
      | nil => exact absurd rfl hfne
      | cons a as => simp [ready]
    have hj : (f :: fs).flatten ++ t = f ++ (fs.flatten ++ t) := by
      simp [List.flatten]
    have hread := read_frame m f (fs.flatten ++ t) buffer hfl hb
    rw [drain, hr, if_pos rfl, hj, hread]
    have := ih n f (fun g hg => hf g (List.mem_cons_of_mem _ hg)) hfl
      (by simp at hfuel; omega)
    simp only [this]
    cases fs with
    | nil => rfl
    | cons g gs => simp [List.getLast?_cons_cons, getLast_getD_cons g gs f buffer]

/-- C9: with `n >= 1` complete frames buffered and nothing else, `read_status`
(given room for the `n` evaluations of its loop condition) extracts them all,
leaves the stream empty and good, and returns the last frame; and whenever the
first read leaves the stream not good, `read_status` returns `NULL`. -/
theorem read_status_last_frame (m : Nat) (hm : 0 < m) (frames : List (List Nat))
    (last buffer : List Nat) (fuel : Nat)
    (hf : ∀ f ∈ frames ++ [last], f.length = m) (hb : buffer.length = m)
    (hfuel : frames.length < fuel) :
    read_status m fuel { buffered := (frames ++ [last]).flatten, good := true } buffer
      = some { frame := some last, iss := { buffered := [], good := true }, buffer := last } ∧
    ∀ iss : istream, (iss.read buffer m).1.good = false →
      read_status m fuel iss buffer
        = some { frame := none, iss := (iss.read buffer m).1, buffer := (iss.read buffer m).2 } := by
  constructor
  · cases frames with
    | nil =>
      have hl : last.length = m := hf last (by simp)
      have hj : ([] ++ [last]).flatten = last ++ ([] : List (List Nat)).flatten := by simp
      have hread := read_frame m last ([] : List (List Nat)).flatten buffer hl hb
      have hd := drain_frames m hm [] fuel last (by simp) hl hfuel
      simp only [read_status, hj, hread, hd]
      rfl
    | cons f fs =>
      have hfl : f.length = m := hf f (by simp)
      have hj : (f :: fs ++ [last]).flatten = f ++ (fs ++ [last]).flatten := by simp
      have hread := read_frame m f (fs ++ [last]).flatten buffer hfl hb
      have hd := drain_frames m hm (fs ++ [last]) fuel f
        (fun g hg => hf g (by simp at hg ⊢; tauto)) hfl (by simp at hfuel ⊢; omega)
      simp only [read_status, hj, hread, hd]
      simp
  · intro iss hbad
    simp [read_status, hbad]

/-- C9 at three buffered frames of two bytes: only the third is returned. -/
theorem read_status_last_frame_witness :
    read_status 2 3 { buffered := [1, 2, 3, 4, 5, 6], good := true } [0, 0]
      = some { frame := some [5, 6], iss := { buffered := [], good := true },
               buffer := [5, 6] } ∧
    read_status 2 3 { buffered := [1], good := true } [0, 0]
      = some { frame := none, iss := { buffered := [], good := false }, buffer := [1, 0] } :=
  ⟨(read_status_last_frame 2 (by decide) [[1, 2], [3, 4]] [5, 6] [0, 0] 3 (by decide) rfl
      (by decide)).1,
   (read_status_last_frame 2 (by decide) [[1, 2], [3, 4]] [5, 6] [0, 0] 3 (by decide) rfl
      (by decide)).2 { buffered := [1], good := true } rfl⟩

/-- With complete frames buffered and then some bytes of the next frame, the
frame `read_status` returns is not the last complete frame: its first bytes are
those of the incomplete frame, and the stream is left not good. -/
theorem read_status_torn_frame (m : Nat) (hm : 0 < m) (frames : List (List Nat))
    (last t buffer : List Nat) (fuel : Nat)
    (hf : ∀ f ∈ frames ++ [last], f.length = m) (hb : buffer.length = m)
    (ht : t.length < m) (hne : t ≠ []) (hfuel : frames.length + 1 < fuel) :
    read_status m fuel { buffered := (frames ++ [last]).flatten ++ t, good := true } buffer
      = some { frame := some (t ++ last.drop t.length),
               iss := { buffered := [], good := false },
               buffer := t ++ last.drop t.length } := by
  cases frames with
  | nil =>
    have hl : last.length = m := hf last (by simp)
    have hj : ([] ++ [last]).flatten ++ t = last ++ (([] : List (List Nat)).flatten ++ t) := by
      simp
    have hread := read_frame m last (([] : List (List Nat)).flatten ++ t) buffer hl hb
    have hd := drain_frames_short m hm t ht hne [] fuel last (by simp) hl hfuel
    simp only [read_status, hj, hread, hd]
    rfl
  | cons f fs =>
    have hfl : f.length = m := hf f (by simp)
    have hj : (f :: fs ++ [last]).flatten ++ t = f ++ ((fs ++ [last]).flatten ++ t) := by simp
    have hread := read_frame m f ((fs ++ [last]).flatten ++ t) buffer hfl hb
    have hd := drain_frames_short m hm t ht hne (fs ++ [last]) fuel f
      (fun g hg => hf g (by simp at hg ⊢; tauto)) hfl (by simp at hfuel ⊢; omega)
    simp only [read_status, hj, hread, hd]
    simp

/-- C10 at the frame `1,2` followed by the single byte `7` of the next frame
(frames of two bytes): `read_status` returns `7,2`, not the complete frame `1,2`;
the byte of the incomplete frame has overwritten the first byte. -/
theorem read_status_partial_frame_overwrites :
    read_status 2 3 { buffered := [1, 2, 7], good := true } [0, 0]
      = some { frame := some [7, 2], iss := { buffered := [], good := false },
               buffer := [7, 2] } ∧
    (some [7, 2] : Option (List Nat)) ≠ some [1, 2] := by
  decide

/-- The loop of `read_status` ends: from a stream that is good or empty, with a
frame size above zero, it needs at most one evaluation of its condition for each
buffered byte, and one more. -/
theorem drain_returns (m : Nat) (hm : 0 < m) :
    ∀ (fuel : Nat) (iss : istream) (buffer : List Nat),
      (iss.good = true ∨ iss.buffered = []) → iss.buffered.length < fuel →
      ∃ r, drain m fuel iss buffer = some r := by
  intro fuel
  induction fuel with
  | zero => intro iss buffer _ h; omega
  | succ n ih =>
    intro iss buffer hinv hlen
    by_cases hr : ready iss = true
    · have hpos : 0 < iss.buffered.length := by simpa [ready] using hr
      have hg : iss.good = true := by
        rcases hinv with h | h
        · exact h
        · rw [h] at hpos
          simp at hpos
      rw [drain, if_pos hr]
      apply ih
      · simp only [istream.read, hg, if_true]
        by_cases hk : (List.take m iss.buffered).length = m
        · exact Or.inl (by simp [hk])
        · refine Or.inr ?_
          simp only [List.length_take] at hk
          exact List.drop_of_length_le (by omega)
      · simp only [istream.read, hg, if_true, List.length_drop]
        omega
    · rw [drain, if_neg hr]
      exact ⟨_, rfl⟩

/-- The function `read_status` returns, whatever the stream holds, when the frame
size is above zero. -/
theorem read_status_returns (m : Nat) (hm : 0 < m) (iss : istream) (buffer : List Nat) :
    ∃ r, read_status m (iss.buffered.length + 1) iss buffer = some r := by
  unfold read_status
  by_cases hg : (iss.read buffer m).1.good = true
  · have hgood : iss.good = true := by
      by_contra hc
      simp [istream.read, hc] at hg
    have hlen : (iss.read buffer m).1.buffered.length < iss.buffered.length + 1 := by
      simp only [istream.read, hgood, if_true, List.length_drop]
      omega
    obtain ⟨r, hr⟩ := drain_returns m hm _ (iss.read buffer m).1 (iss.read buffer m).2
      (Or.inl hg) hlen
    simp [hg, hr]
  · simp [hg]

/-! ## The function `main` -/

/-- C11, as amended: the exit status is zero for a help request and for a run
whose loop ends normally (a signal was seen or standard input is at its end);
it is one when a required option is missing, when the arm does not accept the
connection, and when an exception reaches the handlers of `main`. -/
theorem main_exit_status {U Y S : Type} (A : arm U) (E : engine U Y S) (max_buf : Nat)
    (o : options) (w : world) (s : loop U Y S) :
    (o.help = true → main A E max_buf o w s = .done 0) ∧
    (o.help = false →
      (o.id = none ∨ o.status_port = none ∨ o.robot_arm_host = none ∨
        o.robot_arm_port = none ∨ o.robot_arm_status = none) →
      main A E max_buf o w s = .done 1) ∧
    (o.help = false → o.id ≠ none → o.status_port ≠ none → o.robot_arm_host ≠ none →
      o.robot_arm_port ≠ none → o.robot_arm_status ≠ none →
      (w.connects = false → main A E max_buf o w s = .done 1) ∧
      (w.connects = true → w.opens = false → main A E max_buf o w s = .done 1) ∧
      (w.connects = true → w.opens = true →
        (∀ what, ticks A E max_buf s w.inputs = .raised what →
          main A E max_buf o w s = .done 1) ∧
        (∀ s1, ticks A E max_buf s w.inputs = .done s1 →
          main A E max_buf o w s = .done 0))) := by
  refine ⟨fun h => by simp [main, h], ?_, ?_⟩
  · intro h hm
    unfold main
    rw [if_neg (by simp [h])]
    split
    · rename_i h1 h2 h3 h4 h5
      rcases hm with hm | hm | hm | hm | hm
      · rw [hm] at h1; cases h1
      · rw [hm] at h2; cases h2
      · rw [hm] at h3; cases h3
      · rw [hm] at h4; cases h4
      · rw [hm] at h5; cases h5
    · rfl
  · intro h h1 h2 h3 h4 h5
    obtain ⟨a, ha⟩ := Option.ne_none_iff_exists'.mp h1
    obtain ⟨b, hb⟩ := Option.ne_none_iff_exists'.mp h2
    obtain ⟨c, hc⟩ := Option.ne_none_iff_exists'.mp h3
    obtain ⟨d, hd⟩ := Option.ne_none_iff_exists'.mp h4
    obtain ⟨e, he⟩ := Option.ne_none_iff_exists'.mp h5
    refine ⟨fun hw => by simp [main, h, ha, hb, hc, hd, he, hw],
      fun hw ho => by simp [main, h, ha, hb, hc, hd, he, hw, ho], ?_⟩
    intro hw ho
    exact ⟨fun what ht => by simp [main, h, ha, hb, hc, hd, he, hw, ho, ht],
      fun s1 ht => by simp [main, h, ha, hb, hc, hd, he, hw, ho, ht]⟩

/-- The amended C11 at a run of two ticks that a signal ends: exit status zero. -/
theorem main_exit_status_witness :
    sample_options.help = false ∧
    main sample_arm sample_engine 2 sample_options sample_world sample_loop = .done 0 :=
  ⟨rfl,
   ((main_exit_status sample_arm sample_engine 2 sample_options sample_world sample_loop).2.2
      rfl (by decide) (by decide) (by decide) (by decide) (by decide)).2.2 rfl rfl |>.2
      (step_and_send sample_engine sample_after) rfl⟩

/-- C11 fails as stated: without `--help`, with every required option given and
the arm connected, a run whose standard input is at its end before the first
tick leaves `main` by its closing brace, and the exit status is zero. -/
theorem main_normal_end_exits_zero :
    sample_options.help = false ∧
    main sample_arm sample_engine 2 sample_options quiet_world sample_loop = .done 0 ∧
    ¬ ∃ n, n ≠ 0 ∧
      main sample_arm sample_engine 2 sample_options quiet_world sample_loop = .done n := by
  refine ⟨rfl, rfl, ?_⟩
  rintro ⟨n, hn, h⟩
  have h0 : main sample_arm sample_engine 2 sample_options quiet_world sample_loop
      = .done 0 := rfl
  rw [h0] at h
  exact hn (outcome.done.inj h).symm

/-- The literal `0.1` is a `double` (53 binary digits) and no `double` is nearer
to one tenth: it is off by less than half a unit in the last place. -/
theorem tenth_nearest :
    bit_length 7205759403792794 = 53 ∧
    |(7205759403792794 : Rat) * 2 ^ (-56 : Int) - 1 / 10| < 2 ^ (-57 : Int) := by
  refine ⟨by decide, ?_⟩
  rw [abs_lt]
  constructor <;> norm_num

/-- The rounding of `double.round` is to nearest: the kept significand times the
dropped power of two differs from the exact significand by at most half that
power, and a tie goes to the even significand. -/
theorem round_nearest (m shift : Nat) :
    let q := m / 2 ^ shift
    let r := m % 2 ^ shift
    let q1 := if 2 ^ shift < 2 * r ∨ (2 * r = 2 ^ shift ∧ q % 2 = 1) then q + 1 else q
    2 * |(m : Int) - q1 * 2 ^ shift| ≤ 2 ^ shift ∧
    (2 * |(m : Int) - q1 * 2 ^ shift| = 2 ^ shift → shift ≠ 0 → q1 % 2 = 0) := by
  intro q r q1
  have hm : (m : Int) = q * 2 ^ shift + r := by
    have := Nat.div_add_mod m (2 ^ shift)
    have h2 : m = q * 2 ^ shift + r := by
      simp only [q, r]
      rw [Nat.mul_comm]
      exact this.symm
    exact_mod_cast h2
  have hr : (r : Int) < 2 ^ shift := by
    have : r < 2 ^ shift := Nat.mod_lt _ (by positivity)
    exact_mod_cast this
  have hr0 : (0 : Int) ≤ r := Int.natCast_nonneg r
  by_cases hc : 2 ^ shift < 2 * r ∨ (2 * r = 2 ^ shift ∧ q % 2 = 1)
  · have hq1 : q1 = q + 1 := by simp only [q1, if_pos hc]
    have hd : (m : Int) - q1 * 2 ^ shift = -(2 ^ shift - r) := by
      rw [hq1, hm]
      push_cast
      ring
    have hge : (2 : Int) ^ shift ≤ 2 * r := by
      rcases hc with h | ⟨h, _⟩
      · have : (2 : Int) ^ shift < 2 * r := by exact_mod_cast h
        exact le_of_lt this
      · have : (2 : Int) * r = 2 ^ shift := by exact_mod_cast h
        exact le_of_eq this.symm
    rw [hd, abs_neg, abs_of_nonneg (by linarith)]
    refine ⟨by linarith, ?_⟩
    intro he _
    have he2 : (2 : Int) * r = 2 ^ shift := by linarith
    have he3 : 2 * r = 2 ^ shift := by exact_mod_cast he2
    rcases hc with h | ⟨_, hodd⟩
    · omega
    · rw [hq1]
      omega
  · have hq1 : q1 = q := by simp only [q1, if_neg hc]
    have hd : (m : Int) - q1 * 2 ^ shift = r := by
      rw [hq1, hm]
      ring
    have hle : ¬ (2 ^ shift < 2 * r) := fun h => hc (Or.inl h)
    have hle2 : (2 : Int) * r ≤ 2 ^ shift := by
      have : 2 * r ≤ 2 ^ shift := Nat.le_of_not_lt hle
      exact_mod_cast this
    rw [hd, abs_of_nonneg hr0]
    refine ⟨hle2, ?_⟩
    intro he _
    have he3 : 2 * r = 2 ^ shift := by exact_mod_cast he
    rw [hq1]
    by_contra hodd
    exact hc (Or.inr ⟨he3, by omega⟩)

/-- C12 with no `--sleep` option: the sleep value is the literal `0.1` and `usec`
is 100000, not the 200000 of the usage text. -/
theorem usec_default_is_100000 :
    sample_options.sleep = none ∧ sleep_seconds sample_options = tenth ∧
    usec sample_options = some 100000 ∧ usec sample_options ≠ some 200000 := by
  decide

/-- With `--sleep` given, `usec` is the product of its `double` value and one
million, rounded to a `double` and then cut to an integer. -/
theorem usec_given (o : options) (x : double) (h : o.sleep = some x) :
    usec o = (x.mul_unsigned 1000000).to_uint32 := by
  simp [usec, sleep_seconds, h]

/-- With `--sleep=0.2` (the `double` nearest to one fifth) `usec` is 200000; with
`--sleep=4.1` (the `double` `4616189618054758 * 2^(-50)`) the rounded product
is just below 4100000 and `usec` is 4099999. -/
theorem usec_samples :
    usec { sample_options with sleep := some (.finite false 7205759403792794 (-55)) }
      = some 200000 ∧
    usec { sample_options with sleep := some (.finite false 4616189618054758 (-50)) }
      = some 4099999 := by
  decide

end Ur10

/-! ## Rotation matrices -/

namespace rotation_matrix

/-- The matrix `rotation( roll, pitch, yaw )` is `Rz( yaw ) * Ry( pitch ) * Rx( roll )`. -/
theorem rotation_eq_product (roll pitch yaw : ℝ) :
    rotation roll pitch yaw = Rz yaw * Ry pitch * Rx roll := by
  ext i j
  fin_cases i <;> fin_cases j <;>
    simp [rotation, Rz, Ry, Rx, Matrix.mul_apply, Fin.sum_univ_three, Matrix.vecHead, Matrix.vecTail] <;> ring

/-- The elementary rotation about the x axis times its transpose is the identity. -/
theorem Rx_orthogonal (a : ℝ) : Rx a * (Rx a).transpose = 1 := by
  have h := Real.sin_sq_add_cos_sq a
  ext i j
  fin_cases i <;> fin_cases j <;>
    simp [Rx, Matrix.mul_apply, Fin.sum_univ_three, Matrix.one_apply, Matrix.vecHead, Matrix.vecTail, Matrix.transpose] <;> nlinarith [h]

/-- The elementary rotation about the y axis times its transpose is the identity. -/
theorem Ry_orthogonal (a : ℝ) : Ry a * (Ry a).transpose = 1 := by
  have h := Real.sin_sq_add_cos_sq a
  ext i j
  fin_cases i <;> fin_cases j <;>
    simp [Ry, Matrix.mul_apply, Fin.sum_univ_three, Matrix.one_apply, Matrix.vecHead, Matrix.vecTail, Matrix.transpose] <;> nlinarith [h]

/-- The elementary rotation about the z axis times its transpose is the identity. -/
theorem Rz_orthogonal (a : ℝ) : Rz a * (Rz a).transpose = 1 := by
  have h := Real.sin_sq_add_cos_sq a
  ext i j
  fin_cases i <;> fin_cases j <;>
    simp [Rz, Matrix.mul_apply, Fin.sum_univ_three, Matrix.one_apply, Matrix.vecHead, Matrix.vecTail, Matrix.transpose] <;> nlinarith [h]

/-- The elementary rotation about the x axis has determinant one. -/
theorem Rx_det (a : ℝ) : (Rx a).det = 1 := by
  have h := Real.sin_sq_add_cos_sq a
  simp [Rx, Matrix.det_fin_three]
  nlinarith [h]

/-- The elementary rotation about the y axis has determinant one. -/
theorem Ry_det (a : ℝ) : (Ry a).det = 1 := by
  have h := Real.sin_sq_add_cos_sq a
  simp [Ry, Matrix.det_fin_three]
  nlinarith [h]

/-- The elementary rotation about the z axis has determinant one. -/
theorem Rz_det (a : ℝ) : (Rz a).det = 1 := by
  have h := Real.sin_sq_add_cos_sq a
  simp [Rz, Matrix.det_fin_three]
  nlinarith [h]


/-- C15: for all real `roll`, `pitch`, `yaw` the matrix `rotation( roll, pitch, yaw )`
times its transpose is the identity, its determinant is one, and it is the
product `Rz( yaw ) * Ry( pitch ) * Rx( roll )` of the elementary rotations. -/
theorem rotation_proper (roll pitch yaw : ℝ) :
    rotation roll pitch yaw * (rotation roll pitch yaw).transpose = 1 ∧
    (rotation roll pitch yaw).det = 1 ∧
    rotation roll pitch yaw = Rz yaw * Ry pitch * Rx roll := by
  have hp := rotation_eq_product roll pitch yaw
  refine ⟨?_, ?_, hp⟩
  · rw [hp, Matrix.transpose_mul, Matrix.transpose_mul]
    simp only [Matrix.mul_assoc]
    rw [← Matrix.mul_assoc (Rx roll) (Rx roll).transpose, Rx_orthogonal, Matrix.one_mul,
      ← Matrix.mul_assoc (Ry pitch) (Ry pitch).transpose, Ry_orthogonal, Matrix.one_mul,
      Rz_orthogonal]
  · rw [hp, Matrix.det_mul, Matrix.det_mul, Rx_det, Ry_det, Rz_det]
    norm_num

/-- The entries of `rotation( roll, pitch, yaw )` that `roll_pitch_yaw` reads. -/
theorem rotation_entries (roll pitch yaw : ℝ) :
    rotation roll pitch yaw 0 0 = Real.cos pitch * Real.cos yaw ∧
    rotation roll pitch yaw 1 0 = Real.cos pitch * Real.sin yaw ∧
    rotation roll pitch yaw 2 0 = -Real.sin pitch ∧
    rotation roll pitch yaw 2 1 = Real.sin roll * Real.cos pitch ∧
    rotation roll pitch yaw 2 2 = Real.cos roll * Real.cos pitch ∧
    rotation roll pitch yaw 0 2 = Real.sin roll * Real.sin yaw
      + Real.cos roll * (Real.sin pitch * Real.cos yaw) ∧
    rotation roll pitch yaw 1 2 = -Real.sin roll * Real.cos yaw
      + Real.cos roll * (Real.sin pitch * Real.sin yaw) := by
  simp [rotation, Matrix.vecHead, Matrix.vecTail]

/-- Scaling both arguments of `atan2` by a positive factor does not change it. -/
theorem atan2_mul_pos (y x k : ℝ) (hk : 0 < k) : atan2 (y * k) (x * k) = atan2 y x := by
  unfold atan2
  have h : (⟨x * k, y * k⟩ : ℂ) = (k : ℂ) * ⟨x, y⟩ := by
    apply Complex.ext <;> simp <;> ring
  rw [h, Complex.arg_real_mul _ hk]

/-- For an angle in `(-π, π]`, `atan2` gives the angle back from its sine and cosine. -/
theorem atan2_sin_cos (θ : ℝ) (h1 : -Real.pi < θ) (h2 : θ ≤ Real.pi) :
    atan2 (Real.sin θ) (Real.cos θ) = θ := by
  unfold atan2
  have h : (⟨Real.cos θ, Real.sin θ⟩ : ℂ) = Complex.cos θ + Complex.sin θ * Complex.I := by
    apply Complex.ext <;> simp [Complex.cos_ofReal_re, Complex.sin_ofReal_re,
      Complex.cos_ofReal_im, Complex.sin_ofReal_im]
  rw [h, Complex.arg_cos_add_sin_mul_I ⟨h1, h2⟩]

/-- On a point of the unit circle, the sine and cosine of `atan2` are its coordinates. -/
theorem sin_cos_atan2 (y x : ℝ) (h : x ^ 2 + y ^ 2 = 1) :
    Real.sin (atan2 y x) = y ∧ Real.cos (atan2 y x) = x := by
  unfold atan2
  have ha : Complex.abs ⟨x, y⟩ = 1 := by
    rw [Complex.abs_apply, Complex.normSq_mk]
    have : x * x + y * y = 1 := by nlinarith [h]
    rw [this, Real.sqrt_one]
  have hz : (⟨x, y⟩ : ℂ) ≠ 0 := by
    intro h0
    rw [h0] at ha
    simp at ha
  constructor
  · rw [Complex.sin_arg, ha]
    simp
  · rw [Complex.cos_arg hz, ha]
    simp

/-- C14: for `roll` and `yaw` in `(-π, π]` and `pitch` in `(-π/2, π/2)`,
`roll_pitch_yaw( rotation( roll, pitch, yaw ) )` is `( roll, pitch, yaw )`. -/
theorem roll_pitch_yaw_rotation (roll pitch yaw : ℝ)
    (hr1 : -Real.pi < roll) (hr2 : roll ≤ Real.pi)
    (hp1 : -(Real.pi / 2) < pitch) (hp2 : pitch < Real.pi / 2)
    (hy1 : -Real.pi < yaw) (hy2 : yaw ≤ Real.pi) :
    roll_pitch_yaw (rotation roll pitch yaw) = (roll, pitch, yaw) := by
  obtain ⟨e00, e10, e20, e21, e22, _, _⟩ := rotation_entries roll pitch yaw
  have hc : 0 < Real.cos pitch := Real.cos_pos_of_mem_Ioo ⟨hp1, hp2⟩
  have hsq := Real.sin_sq_add_cos_sq pitch
  have hn1 : ¬ (-Real.sin pitch = 1) := by
    intro h
    have : Real.sin pitch = -1 := by linarith
    rw [this] at hsq
    nlinarith [hsq, hc]
  have hn2 : ¬ (-Real.sin pitch = -1) := by
    intro h
    have : Real.sin pitch = 1 := by linarith
    rw [this] at hsq
    nlinarith [hsq, hc]
  unfold roll_pitch_yaw
  simp only [e00, e10, e20, e21, e22, hn1, hn2, or_self, if_false, neg_neg]
  rw [Real.arcsin_sin (le_of_lt hp1) (le_of_lt hp2), atan2_mul_pos _ _ _ hc,
    mul_comm (Real.cos pitch) (Real.sin yaw), mul_comm (Real.cos pitch) (Real.cos yaw),
    atan2_mul_pos _ _ _ hc, atan2_sin_cos roll hr1 hr2, atan2_sin_cos yaw hy1 hy2]


/-- The angles `( π, π/4, -π/2 )` come back from their rotation matrix. -/
theorem roll_pitch_yaw_rotation_witness :
    roll_pitch_yaw (rotation Real.pi (Real.pi / 4) (-(Real.pi / 2)))
      = (Real.pi, Real.pi / 4, -(Real.pi / 2)) :=
  roll_pitch_yaw_rotation Real.pi (Real.pi / 4) (-(Real.pi / 2))
    (by linarith [Real.pi_pos]) (le_refl _) (by linarith [Real.pi_pos])
    (by linarith [Real.pi_pos]) (by linarith [Real.pi_pos]) (by linarith [Real.pi_pos])

/-- The angle of the point `(-1, 0)` is `π`. -/
theorem atan2_zero_neg_one : atan2 0 (-1) = Real.pi := by
  unfold atan2
  have h : (⟨-1, 0⟩ : ℂ) = -1 := by
    apply Complex.ext <;> simp
  rw [h, Complex.arg_neg_one]

/-- Two triples of angles give the same matrix when the sines and cosines of
roll, pitch and yaw differ by signs that cancel in every entry. -/
theorem rotation_of_sin_cos (r p y r1 p1 y1 : ℝ) (a b c : ℝ)
    (hsr : Real.sin r1 = a * Real.sin r) (hcr : Real.cos r1 = a * Real.cos r)
    (hsp : Real.sin p1 = Real.sin p) (hcp : Real.cos p1 = b * Real.cos p)
    (hsy : Real.sin y1 = c * Real.sin y) (hcy : Real.cos y1 = c * Real.cos y)
    (hab : a * b = 1) (hac : a * c = 1) (hbc : b * c = 1) :
    rotation r1 p1 y1 = rotation r p y := by
  unfold rotation
  simp only [hsr, hcr, hsp, hcp, hsy, hcy]
  ext i j
  fin_cases i <;> fin_cases j <;> simp [Matrix.vecHead, Matrix.vecTail]
  · linear_combination (Real.cos p * Real.cos y) * hbc
  · linear_combination (-Real.cos r * Real.sin y + Real.sin r * Real.sin p * Real.cos y) * hac
  · linear_combination (Real.sin r * Real.sin y + Real.cos r * Real.sin p * Real.cos y) * hac
  · linear_combination (Real.cos p * Real.sin y) * hbc
  · linear_combination (Real.cos r * Real.cos y + Real.sin r * Real.sin p * Real.sin y) * hac
  · linear_combination (-Real.sin r * Real.cos y + Real.cos r * Real.sin p * Real.sin y) * hac
  · linear_combination (Real.sin r * Real.cos p) * hab
  · linear_combination (Real.cos r * Real.cos p) * hab

/-- C13 at `roll = 0`, `pitch = -π/2`, `yaw = 0`: the matrix has `m(2,0) = 1`, the
gimbal-lock branch gives the angles `( 0, -π/2, π )`, and the matrix built from
them has `1` at row 0, column 2 where the first matrix has `-1`; the two
matrices differ. -/
theorem roll_pitch_yaw_not_inverse_at_gimbal_lock :
    rotation 0 (-(Real.pi / 2)) 0 2 0 = 1 ∧
    roll_pitch_yaw (rotation 0 (-(Real.pi / 2)) 0) = (0, -(Real.pi / 2), Real.pi) ∧
    rotation 0 (-(Real.pi / 2)) 0 0 2 = -1 ∧
    rotation_rpy (roll_pitch_yaw (rotation 0 (-(Real.pi / 2)) 0)) 0 2 = 1 ∧
    rotation_rpy (roll_pitch_yaw (rotation 0 (-(Real.pi / 2)) 0))
      ≠ rotation 0 (-(Real.pi / 2)) 0 := by
  obtain ⟨_, _, e20, _, _, e02, e12⟩ := rotation_entries 0 (-(Real.pi / 2)) 0
  simp only [Real.sin_neg, Real.cos_neg, Real.sin_pi_div_two, Real.cos_pi_div_two,
    Real.sin_zero, Real.cos_zero] at e20 e02 e12
  norm_num at e20 e02 e12
  have hrpy : roll_pitch_yaw (rotation 0 (-(Real.pi / 2)) 0) = (0, -(Real.pi / 2), Real.pi) := by
    unfold roll_pitch_yaw
    simp only [e20, e02, e12, true_or, if_true, Real.arcsin_neg_one, atan2_zero_neg_one]
  have hback : rotation_rpy (roll_pitch_yaw (rotation 0 (-(Real.pi / 2)) 0)) 0 2 = 1 := by
    rw [hrpy]
    obtain ⟨_, _, _, _, _, f02, _⟩ := rotation_entries 0 (-(Real.pi / 2)) Real.pi
    simp only [rotation_rpy, f02]
    simp
  refine ⟨e20, hrpy, e02, hback, ?_⟩
  intro h
  have := congrFun (congrFun h 0) 2
  rw [hback, e02] at this
  norm_num at this


/-- The sine and cosine of `atan2` on a scaled point of the unit circle, by the
sign of the scale. -/
theorem sin_cos_atan2_scaled (s c k : ℝ) (h : c ^ 2 + s ^ 2 = 1) :
    (0 < k → Real.sin (atan2 (s * k) (c * k)) = s ∧ Real.cos (atan2 (s * k) (c * k)) = c) ∧
    (k < 0 → Real.sin (atan2 (s * k) (c * k)) = -s ∧ Real.cos (atan2 (s * k) (c * k)) = -c) := by
  constructor
  · intro hk
    rw [atan2_mul_pos s c k hk]
    exact sin_cos_atan2 s c h
  · intro hk
    have e1 : s * k = -s * -k := by ring
    have e2 : c * k = -c * -k := by ring
    rw [e1, e2, atan2_mul_pos (-s) (-c) (-k) (by linarith)]
    exact sin_cos_atan2 (-s) (-c) (by nlinarith [h])

/-- The cosine of `asin( sin( p ) )` is the absolute value of the cosine of `p`. -/
theorem cos_arcsin_sin (p : ℝ) :
    (0 ≤ Real.cos p → Real.cos (Real.arcsin (Real.sin p)) = Real.cos p) ∧
    (Real.cos p ≤ 0 → Real.cos (Real.arcsin (Real.sin p)) = -Real.cos p) := by
  have hsq := Real.sin_sq_add_cos_sq p
  have e : 1 - Real.sin p ^ 2 = Real.cos p ^ 2 := by linarith
  rw [Real.cos_arcsin, e]
  constructor
  · intro h
    exact Real.sqrt_sq h
  · intro h
    have : Real.cos p ^ 2 = (-Real.cos p) ^ 2 := by ring
    rw [this]
    exact Real.sqrt_sq (by linarith)

/-- Away from `sin( pitch ) = -1`, turning `rotation( roll, pitch, yaw )` into
angles and back gives the same matrix; this covers the gimbal-lock branch for
`m(2,0) = -1`. -/
theorem rotation_roll_pitch_yaw (roll pitch yaw : ℝ) (h : Real.sin pitch ≠ -1) :
    rotation_rpy (roll_pitch_yaw (rotation roll pitch yaw)) = rotation roll pitch yaw := by
  obtain ⟨e00, e10, e20, e21, e22, e02, e12⟩ := rotation_entries roll pitch yaw
  have hsqp := Real.sin_sq_add_cos_sq pitch
  have hsqr := Real.sin_sq_add_cos_sq roll
  have hsqy := Real.sin_sq_add_cos_sq yaw
  have hur : Real.cos roll ^ 2 + Real.sin roll ^ 2 = 1 := by linarith
  have huy : Real.cos yaw ^ 2 + Real.sin yaw ^ 2 = 1 := by linarith
  have hsa : Real.sin (Real.arcsin (Real.sin pitch)) = Real.sin pitch :=
    Real.sin_arcsin (Real.neg_one_le_sin pitch) (Real.sin_le_one pitch)
  have hm1 : ¬ (-Real.sin pitch = 1) := fun hh => h (by linarith)
  by_cases h1 : Real.sin pitch = 1
  · have hc : Real.cos pitch = 0 := by
      rw [h1] at hsqp
      have : Real.cos pitch ^ 2 = 0 := by linarith
      exact pow_eq_zero_iff (two_ne_zero) |>.mp this
    have hu : (Real.sin roll * Real.sin yaw + Real.cos roll * (1 * Real.cos yaw)) ^ 2
        + (-Real.sin roll * Real.cos yaw + Real.cos roll * (1 * Real.sin yaw)) ^ 2 = 1 := by
      have : (Real.sin roll * Real.sin yaw + Real.cos roll * (1 * Real.cos yaw)) ^ 2
          + (-Real.sin roll * Real.cos yaw + Real.cos roll * (1 * Real.sin yaw)) ^ 2
          = (Real.sin roll ^ 2 + Real.cos roll ^ 2) * (Real.sin yaw ^ 2 + Real.cos yaw ^ 2) := by
        ring
      rw [this, hsqr, hsqy, one_mul]
    obtain ⟨hs1, hc1⟩ := sin_cos_atan2 _ _ hu
    unfold roll_pitch_yaw
    simp only [e20, e02, e12, h1, or_true, if_true, neg_neg, Real.arcsin_one]
    unfold rotation_rpy rotation
    simp only [hs1, hc1, Real.sin_zero, Real.cos_zero, Real.sin_pi_div_two,
      Real.cos_pi_div_two, h1, hc]
    ext i j
    fin_cases i <;> fin_cases j <;> (simp [Matrix.vecHead, Matrix.vecTail]; try ring)
  · have hm2 : ¬ (-Real.sin pitch = -1) := fun hh => h1 (by linarith)
    have hc0 : Real.cos pitch ≠ 0 := by
      intro hc
      rw [hc] at hsqp
      have : (Real.sin pitch - 1) * (Real.sin pitch + 1) = 0 := by nlinarith [hsqp]
      rcases mul_eq_zero.mp this with hh | hh
      · exact h1 (by linarith)
      · exact h (by linarith)
    unfold roll_pitch_yaw
    simp only [e00, e10, e20, e21, e22, hm1, hm2, or_self, if_false, neg_neg]
    unfold rotation_rpy
    simp only []
    rw [mul_comm (Real.cos pitch) (Real.sin yaw), mul_comm (Real.cos pitch) (Real.cos yaw)]
    rcases lt_or_gt_of_ne hc0 with hneg | hpos
    · obtain ⟨hsr, hcr⟩ := (sin_cos_atan2_scaled (Real.sin roll) (Real.cos roll)
        (Real.cos pitch) hur).2 hneg
      obtain ⟨hsy, hcy⟩ := (sin_cos_atan2_scaled (Real.sin yaw) (Real.cos yaw)
        (Real.cos pitch) huy).2 hneg
      have hcp := (cos_arcsin_sin pitch).2 (le_of_lt hneg)
      exact rotation_of_sin_cos roll pitch yaw _ _ _ (-1) (-1) (-1)
        (by rw [hsr]; ring) (by rw [hcr]; ring) hsa (by rw [hcp]; ring)
        (by rw [hsy]; ring) (by rw [hcy]; ring) (by norm_num) (by norm_num) (by norm_num)
    · obtain ⟨hsr, hcr⟩ := (sin_cos_atan2_scaled (Real.sin roll) (Real.cos roll)
        (Real.cos pitch) hur).1 hpos
      obtain ⟨hsy, hcy⟩ := (sin_cos_atan2_scaled (Real.sin yaw) (Real.cos yaw)
        (Real.cos pitch) huy).1 hpos
      have hcp := (cos_arcsin_sin pitch).1 (le_of_lt hpos)
      exact rotation_of_sin_cos roll pitch yaw _ _ _ 1 1 1
        (by rw [hsr]; ring) (by rw [hcr]; ring) hsa (by rw [hcp]; ring)
        (by rw [hsy]; ring) (by rw [hcy]; ring) (by norm_num) (by norm_num) (by norm_num)

end rotation_matrix
